import Mathlib

/-!
Verification of the unstake program's pool accounting and position-lifecycle
claims against a shallow embedding of the sources
(`programs/unstake/src/lib.rs`, `instructions/unstake.rs`,
`instructions/unstake_instructions/unstake_wsol.rs`).

Accounts and ledger identities are abstracted to naturals; instruction
handlers are functions from the pre-state of the accounts they touch to
`Except UnstakeError` of the post-state.  A Solana instruction either
commits as a whole or aborts the whole transaction, so an `error` result
carries no post-state: no partial commit is representable.
-/

namespace SanctumUnstake

/-- A ledger account identity (Solana pubkey), abstracted to a natural. -/
abbrev Pubkey := Nat

/-- Modelled from the spec: the wrapped-SOL mint constant `WRAPPED_SOL_MINT`
(`consts.rs` is not among the sources); a fixed distinguished identity. -/
def WRAPPED_SOL_MINT : Pubkey := 1

/-- The staker / withdrawer authority pair of a stake account (the stake
program's `Authorized`). -/
structure Authorized where
  staker : Pubkey
  withdrawer : Pubkey
deriving DecidableEq, Repr

/-- The meta of an initialized or delegated stake account: the authority pair
returned by `stake_account.authorized()` and the result of
`stake_account.lockup().is_in_force(clock, None)` at the current clock with
no custodian signer. -/
structure StakeMeta where
  authorized : Authorized
  lockupInForce : Bool
deriving DecidableEq, Repr

/-- A stake account as read through anchor_spl's `StakeAccount`.  `meta` is
`none` when the underlying stake state exposes no meta (then both
`authorized()` and `lockup()` return `None`); `lamports` is the account's
balance. -/
structure StakeAccount where
  meta : Option StakeMeta
  lamports : Nat
deriving DecidableEq, Repr

/-- Modelled from the spec: the `Pool` account state (`state.rs` is not among
the sources; only its uses are).  Fields per the spec's data model; the
pool's liquid reserves live in the separate `pool_sol_reserves` system
account, not here. -/
structure Pool where
  authority : Pubkey
  feeAuthority : Pubkey
  lpSupply : Nat
deriving DecidableEq, Repr

/-- The per-position record.  `state.rs` is not among the sources; the single
field is the one the sources write (`unstake.rs` line 112) and the spec
names: the position's measured value when the pool took ownership. -/
structure StakeAccountRecord where
  lamports_at_creation : Nat
deriving DecidableEq, Repr

/-- Modelled from the spec: the error conditions (`errors.rs` is not among
the sources).  The first five variant names are the `UnstakeError` variants
the sources use; `RecordAlreadyExists` is anchor's failure of `init` on an
account address that already holds an account; `ClockConstraintViolated` is
the failure of the `Clock::check_id` account constraint;
`StakeProgramLockupInForce` and `StakeProgramAuthorizeFailed` are failures
of the external stake program's `authorize`, distinct from this program's
own errors; `InsufficientLiquidity` is the spec's pool-quote error. -/
inductive UnstakeError where
  | StakeAccountAuthorizedNotRetrievable
  | StakeAccountNotOwned
  | StakeAccountLockupNotRetrievable
  | StakeAccountLockupInForce
  | DestinationNotWSol
  | RecordAlreadyExists
  | ClockConstraintViolated
  | StakeProgramLockupInForce
  | StakeProgramAuthorizeFailed
  | InsufficientLiquidity
deriving DecidableEq, Repr

/-- Decidable equality of instruction results, for evaluating the embedding
on concrete inputs. -/
instance exceptDecidableEq {ε α} [DecidableEq ε] [DecidableEq α] :
    DecidableEq (Except ε α) := fun x y =>
  match x, y with
  | Except.ok a, Except.ok b =>
    if h : a = b then isTrue (by rw [h]) else isFalse (by simp [h])
  | Except.ok _, Except.error _ => isFalse (by simp)
  | Except.error _, Except.ok _ => isFalse (by simp)
  | Except.error d, Except.error e =>
    if h : d = e then isTrue (by rw [h]) else isFalse (by simp [h])

/-- The external stake program's `authorize` for the `Staker` role, signed by
`signer`: the staker authority may be changed by the current staker or the
current withdrawer; lockup never gates staker changes. -/
def stakeAuthorizeStaker (a : Authorized) (signer newAuthorized : Pubkey) :
    Except UnstakeError Authorized :=
  if signer = a.staker ∨ signer = a.withdrawer then
    Except.ok { a with staker := newAuthorized }
  else Except.error UnstakeError.StakeProgramAuthorizeFailed

/-- The external stake program's `authorize` for the `Withdrawer` role with
no custodian signature: when the account's lockup is in force the stake
program fails with its own lockup error; otherwise the change requires the
current withdrawer's signature. -/
def stakeAuthorizeWithdrawer (a : Authorized) (lockupInForce : Bool)
    (signer newAuthorized : Pubkey) : Except UnstakeError Authorized :=
  if lockupInForce then Except.error UnstakeError.StakeProgramLockupInForce
  else if signer = a.withdrawer then
    Except.ok { a with withdrawer := newAuthorized }
  else Except.error UnstakeError.StakeProgramAuthorizeFailed

/-- The accounts of the plain `Unstake` instruction (`unstake.rs`), with the
ledger facts the instruction reads or writes.  `recordInitialized` models
whether the passed `stake_account_record` address already holds an account
(anchor's `init` fails then); `clockIsSysvar` models the
`Clock::check_id(clock.key)` constraint. -/
structure UnstakeAccts where
  unstaker : Pubkey
  poolAccount : Pool
  poolSolReserves : Pubkey
  reservesLamports : Nat
  stakeAccount : StakeAccount
  recordInitialized : Bool
  destinationLamports : Nat
  clockIsSysvar : Bool
deriving DecidableEq, Repr

/-- Post-state of a successful plain `Unstake`: the accounts and the newly
created record's contents. -/
structure UnstakePost where
  accts : UnstakeAccts
  record : StakeAccountRecord
deriving DecidableEq, Repr

/-- The plain `Unstake` instruction: anchor account validation in declaration
order — the record account's `init` and the clock-id constraint; the
ownership and lockup constraints on `stake_account` are left as TODO
comments in `unstake.rs` (lines 34–35), so none are modelled — then the body
of `Unstake::run` (`unstake.rs` lines 63–119): retrieve `authorized()`,
check the unstaker holds the withdrawer authority, CPI `stake::authorize`
for `Staker` and then for `Withdrawer` to `pool_sol_reserves`, and set the
record's `lamports_at_creation` to the stake account's lamports.  The pool
account, the reserves balance and the destination are not touched: the
pay-out and pool update are TODO comments in the source (lines 114–116).
Any error aborts the whole transaction, so no partial state is committed. -/
def unstakeRun (s : UnstakeAccts) : Except UnstakeError UnstakePost :=
  if s.recordInitialized then Except.error UnstakeError.RecordAlreadyExists
  else if !s.clockIsSysvar then Except.error UnstakeError.ClockConstraintViolated
  else
    match s.stakeAccount.meta with
    | none => Except.error UnstakeError.StakeAccountAuthorizedNotRetrievable
    | some m =>
      if s.unstaker ≠ m.authorized.withdrawer then
        Except.error UnstakeError.StakeAccountNotOwned
      else
        match stakeAuthorizeStaker m.authorized s.unstaker s.poolSolReserves with
        | Except.error e => Except.error e
        | Except.ok a1 =>
          match stakeAuthorizeWithdrawer a1 m.lockupInForce s.unstaker
              s.poolSolReserves with
          | Except.error e => Except.error e
          | Except.ok a2 =>
            Except.ok
              { accts := { s with
                  stakeAccount := { s.stakeAccount with
                    meta := some { authorized := a2,
                                   lockupInForce := m.lockupInForce } },
                  recordInitialized := true },
                record := { lamports_at_creation := s.stakeAccount.lamports } }

/-- Inversion for the staker `authorize`: on success the staker is replaced
and nothing else changes. -/
lemma stakeAuthorizeStaker_ok {a a' : Authorized} {signer n : Pubkey}
    (h : stakeAuthorizeStaker a signer n = Except.ok a') :
    a' = { a with staker := n } := by
  unfold stakeAuthorizeStaker at h
  split at h
  · exact (Except.ok.injEq _ _).mp h |>.symm
  · exact absurd h (by simp)

/-- Inversion for the withdrawer `authorize`: success needs the lockup out of
force and the current withdrawer's signature, and replaces the withdrawer. -/
lemma stakeAuthorizeWithdrawer_ok {a a' : Authorized} {l : Bool}
    {signer n : Pubkey}
    (h : stakeAuthorizeWithdrawer a l signer n = Except.ok a') :
    l = false ∧ signer = a.withdrawer ∧ a' = { a with withdrawer := n } := by
  unfold stakeAuthorizeWithdrawer at h
  split at h
  · exact absurd h (by simp)
  · split at h
    · refine ⟨by simp_all, by assumption, ((Except.ok.injEq _ _).mp h).symm⟩
    · exact absurd h (by simp)

/-- The authority pair after acceptance: both roles held by the pool's
reserve account, lockup not in force. -/
def acceptedMeta (poolSolReserves : Pubkey) : StakeMeta :=
  { authorized := { staker := poolSolReserves, withdrawer := poolSolReserves },
    lockupInForce := false }

/-- The post-state a successful plain `Unstake` commits (used only to state
the characterization lemma): both authorities moved to the reserves, the
record created with the stake account's lamports, all else untouched. -/
def unstakePost (s : UnstakeAccts) : UnstakePost :=
  { accts := { s with
      stakeAccount := { s.stakeAccount with
        meta := some (acceptedMeta s.poolSolReserves) },
      recordInitialized := true },
    record := { lamports_at_creation := s.stakeAccount.lamports } }

/-- Full characterization of a successful plain `Unstake`: the validation
and ownership conditions, and the exact post-state. -/
lemma unstakeRun_ok_iff (s : UnstakeAccts) (p : UnstakePost) :
    unstakeRun s = Except.ok p ↔
      s.recordInitialized = false ∧ s.clockIsSysvar = true ∧
      ∃ m, s.stakeAccount.meta = some m ∧
        s.unstaker = m.authorized.withdrawer ∧
        m.lockupInForce = false ∧
        p = unstakePost s := by
  constructor
  · intro h
    unfold unstakeRun at h
    split at h
    · exact absurd h (by simp)
    · split at h
      · exact absurd h (by simp)
      · rename_i hrec hclk
        refine ⟨by simpa using hrec, by simpa using hclk, ?_⟩
        split at h
        · exact absurd h (by simp)
        · rename_i m hm
          split at h
          · exact absurd h (by simp)
          · rename_i hown
            split at h
            · exact absurd h (by simp)
            · rename_i a1 ha1
              split at h
              · exact absurd h (by simp)
              · rename_i a2 ha2
                obtain ⟨hl, hsig, ha2'⟩ := stakeAuthorizeWithdrawer_ok ha2
                have ha1' := stakeAuthorizeStaker_ok ha1
                have hownr : s.unstaker = m.authorized.withdrawer := by
                  by_contra hc; exact hown hc
                refine ⟨m, hm, hownr, hl, ?_⟩
                have hp := (Except.ok.injEq _ _).mp h
                subst ha1' ha2'
                rw [← hp]
                simp [unstakePost, acceptedMeta, hl]
  · rintro ⟨hrec, hclk, m, hm, hown, hl, hp⟩
    subst hp
    unfold unstakeRun stakeAuthorizeStaker stakeAuthorizeWithdrawer
    simp [hrec, hclk, hm, hown, hl, unstakePost, acceptedMeta]

/-- Modelled from the spec: the fee-curve configuration (`fee.rs` /
`state.rs` are not among the sources; only the `fee_account` use is).  The
liquidity-linear variant, with exact rational ratios per the spec's
Rational type. -/
structure Fee where
  maxFeeRatio : ℚ
  minFeeRatio : ℚ
  liquidityThreshold : ℚ
deriving DecidableEq, Repr

/-- The spec's Fee invariant: `0 ≤ min_fee_ratio ≤ max_fee_ratio ≤ 1`. -/
def Fee.valid (f : Fee) : Prop :=
  0 ≤ f.minFeeRatio ∧ f.minFeeRatio ≤ f.maxFeeRatio ∧ f.maxFeeRatio ≤ 1

/-- Validity of a fee configuration is checkable. -/
instance feeValidDecidable (f : Fee) : Decidable f.valid :=
  inferInstanceAs (Decidable
    (0 ≤ f.minFeeRatio ∧ f.minFeeRatio ≤ f.maxFeeRatio ∧ f.maxFeeRatio ≤ 1))

/-- Modelled from the spec: `price(remaining_liquidity_after_payout,
position_value) → fee_ratio` for the liquidity-linear variant, the spec's
three clauses read in order: the minimum at or above the threshold, the
maximum at or below zero remaining liquidity, the linear interpolation in
between.  The position value does not enter the liquidity-linear formula. -/
def Fee.price (f : Fee) (remainingLiquidity positionValue : ℚ) : ℚ :=
  if f.liquidityThreshold ≤ remainingLiquidity then f.minFeeRatio
  else if remainingLiquidity ≤ 0 then f.maxFeeRatio
  else
    f.maxFeeRatio -
      (f.maxFeeRatio - f.minFeeRatio) * remainingLiquidity / f.liquidityThreshold

/-- Modelled from the spec: the Rational type's multiplication of a ratio by
an unsigned integer amount, converted to an integer payment rounding up (the
ceiling, which favors the pool), computed on the numerator and denominator
as `rational.rs` would; for a nonnegative ratio this is exactly the ceiling
of `v * r`, as `ceilMulNat_spec` proves. -/
def ceilMulNat (v : Nat) (r : ℚ) : Nat :=
  (((v : Int) * r.num + (r.den : Int) - 1) / (r.den : Int)).toNat

/-- Modelled from the spec: `quote_unstake(position_value)` of the Pool
Ledger.  Fails `InsufficientLiquidity` when the reserves cannot cover the
position's full value (the quote is pure, so no pool state is touched);
otherwise prices the fee at `reserves - position_value` remaining
liquidity, takes the ceiling of `position_value * fee_ratio` as the fee,
and pays out the rest. -/
def quoteUnstake (f : Fee) (reserves positionValue : Nat) :
    Except UnstakeError (Nat × Nat) :=
  if reserves < positionValue then Except.error UnstakeError.InsufficientLiquidity
  else
    let r := f.price ((reserves - positionValue : Nat) : ℚ) (positionValue : ℚ)
    let feeAmount := ceilMulNat positionValue r
    Except.ok (positionValue - feeAmount, feeAmount)

/-- The accounts of the `UnstakeWSOL` instruction (`unstake_wsol.rs`).
`destinationAmount` is the destination token account's token balance and
`destinationLamports` its lamport balance; `recordInitialized` models
whether the record PDA derived from (pool, stake account) already holds an
account, so it is exactly "a record exists for this position identity in
this pool". -/
structure WsolAccts where
  payer : Pubkey
  unstaker : Pubkey
  stakeAccount : StakeAccount
  destinationMint : Pubkey
  destinationAmount : Nat
  destinationLamports : Nat
  poolAccount : Pool
  poolSolReserves : Pubkey
  reservesLamports : Nat
  fee : Fee
  recordInitialized : Bool
deriving DecidableEq, Repr

/-- Post-state of a successful `UnstakeWSOL`: the accounts, the created
record, and the `UnstakeResult` amounts the handler logs. -/
structure WsolPost where
  accts : WsolAccts
  record : StakeAccountRecord
  payoutLamports : Nat
  feeLamports : Nat
deriving DecidableEq, Repr

/-- Modelled from the spec: `run_unstake` (`unstake_accounts.rs` is not among
the sources; only `UnstakeWSOL::run`, which calls it, is), the Unstake
Orchestration sequence: resolve the position value from the external ledger
(the stake account's lamports), `quote_unstake`, the Accept transition
(withdrawer authority check, both authority roles to the pool reserves via
the stake program, record with `lamports_at_creation` = the value), and the
reserve debit plus payout transfer to the destination, as one atomic unit.
The protocol-fee treasury transfer is not modelled: this instruction's
context carries no protocol-fee account, so the fee simply stays out of the
payout. -/
def runUnstake (s : WsolAccts) : Except UnstakeError WsolPost :=
  match s.stakeAccount.meta with
  | none => Except.error UnstakeError.StakeAccountAuthorizedNotRetrievable
  | some m =>
    match quoteUnstake s.fee s.reservesLamports s.stakeAccount.lamports with
    | Except.error e => Except.error e
    | Except.ok (payout, feeAmt) =>
      if s.unstaker ≠ m.authorized.withdrawer then
        Except.error UnstakeError.StakeAccountNotOwned
      else
        match stakeAuthorizeStaker m.authorized s.unstaker s.poolSolReserves with
        | Except.error e => Except.error e
        | Except.ok a1 =>
          match stakeAuthorizeWithdrawer a1 m.lockupInForce s.unstaker
              s.poolSolReserves with
          | Except.error e => Except.error e
          | Except.ok a2 =>
            Except.ok
              { accts := { s with
                  stakeAccount := { s.stakeAccount with
                    meta := some { authorized := a2,
                                   lockupInForce := m.lockupInForce } },
                  reservesLamports := s.reservesLamports - payout,
                  destinationLamports := s.destinationLamports + payout,
                  recordInitialized := true },
                record := { lamports_at_creation := s.stakeAccount.lamports },
                payoutLamports := payout,
                feeLamports := feeAmt }

/-- The `UnstakeWSOL` instruction: anchor account validation in declaration
order — the stake account's lockup constraint (`unstake_wsol.rs` lines
27–41: `StakeAccountLockupNotRetrievable` when the meta is missing,
`StakeAccountLockupInForce` when the lockup is in force), the destination
mint constraint (lines 43–48: `DestinationNotWSol` unless the mint is the
wrapped-SOL mint), the record `init` on the PDA keyed by (pool, stake
account) (lines 70–77: fails when a record already exists for this position
identity) — then `UnstakeWSOL::run` (lines 87–131): `run_unstake`, then
`sync_native` on the destination (its token balance set to its lamport
balance; the rent-exempt reserve is abstracted away), then the analytics
log, which changes no state.  Any error aborts the whole transaction. -/
def unstakeWsolRun (s : WsolAccts) : Except UnstakeError WsolPost :=
  match s.stakeAccount.meta with
  | none => Except.error UnstakeError.StakeAccountLockupNotRetrievable
  | some m =>
    if m.lockupInForce then Except.error UnstakeError.StakeAccountLockupInForce
    else if s.destinationMint ≠ WRAPPED_SOL_MINT then
      Except.error UnstakeError.DestinationNotWSol
    else if s.recordInitialized then Except.error UnstakeError.RecordAlreadyExists
    else
      match runUnstake s with
      | Except.error e => Except.error e
      | Except.ok post =>
        Except.ok { post with accts := { post.accts with
          destinationAmount := post.accts.destinationLamports } }

/-- `ceilMulNat v r` is exactly the ceiling of `v * r` for a nonnegative
ratio: it is at least `v * r` and less than `v * r + 1`. -/
lemma ceilMulNat_spec (v : Nat) (r : ℚ) (hr : 0 ≤ r) :
    (v : ℚ) * r ≤ (ceilMulNat v r : ℚ) ∧
      (ceilMulNat v r : ℚ) < (v : ℚ) * r + 1 := by
  have hn : (0 : Int) ≤ r.num := Rat.num_nonneg.mpr hr
  have hd : (0 : Int) < (r.den : Int) := Int.ofNat_pos.mpr r.pos
  set N : Int := (v : Int) * r.num with hN
  have hN0 : 0 ≤ N := mul_nonneg (Int.ofNat_nonneg v) hn
  set k : Int := (N + (r.den : Int) - 1) / (r.den : Int) with hk
  have hmod := Int.ediv_add_emod (N + (r.den : Int) - 1) (r.den : Int)
  have hmod0 := Int.emod_nonneg (N + (r.den : Int) - 1) (by omega : (r.den : Int) ≠ 0)
  have hmodlt := Int.emod_lt_of_pos (N + (r.den : Int) - 1) hd
  rw [← hk] at hmod
  have hk0 : 0 ≤ k := Int.ediv_nonneg (by omega) (le_of_lt hd)
  have hlow : N ≤ (r.den : Int) * k := by omega
  have hhigh : (r.den : Int) * k < N + (r.den : Int) := by omega
  have hcast : ((ceilMulNat v r : Nat) : ℚ) = ((k : Int) : ℚ) := by
    rw [ceilMulNat, ← hN, ← hk]
    exact_mod_cast congrArg (fun z : Int => (z : ℚ)) (Int.toNat_of_nonneg hk0)
  have hvr : (v : ℚ) * r = ((N : Int) : ℚ) / ((r.den : Int) : ℚ) := by
    conv_lhs => rw [← Rat.num_div_den r]
    rw [hN]
    push_cast
    ring
  have hdq : (0 : ℚ) < ((r.den : Int) : ℚ) := by exact_mod_cast hd
  constructor
  · rw [hcast, hvr, div_le_iff hdq]
    calc ((N : Int) : ℚ) ≤ (((r.den : Int) * k : Int) : ℚ) := by exact_mod_cast hlow
    _ = ((k : Int) : ℚ) * ((r.den : Int) : ℚ) := by push_cast; ring
  · rw [hcast, hvr]
    rw [div_add' _ _ _ (ne_of_gt hdq), lt_div_iff hdq]
    calc ((k : Int) : ℚ) * ((r.den : Int) : ℚ)
        = (((r.den : Int) * k : Int) : ℚ) := by push_cast; ring
    _ < ((N + (r.den : Int) : Int) : ℚ) := by exact_mod_cast hhigh
    _ = ((N : Int) : ℚ) + 1 * ((r.den : Int) : ℚ) / ((r.den : Int) : ℚ) * ((r.den : Int) : ℚ) := by
      field_simp
    _ ≤ ((N : Int) : ℚ) + 1 * ((r.den : Int) : ℚ) := by
      rw [div_mul_cancel₀ _ (ne_of_gt hdq)]

/-- The fee curve never exceeds the configured maximum ratio. -/
lemma price_le_max (f : Fee) (hf : f.valid) (liq v : ℚ) :
    f.price liq v ≤ f.maxFeeRatio := by
  obtain ⟨h0, hmm, h1⟩ := hf
  unfold Fee.price
  split_ifs with h1' h2'
  · exact hmm
  · exact le_refl _
  · have hliq : 0 < liq := lt_of_not_ge h2'
    have ht : 0 < f.liquidityThreshold := lt_trans hliq (lt_of_not_ge h1')
    have : 0 ≤ (f.maxFeeRatio - f.minFeeRatio) * liq / f.liquidityThreshold :=
      div_nonneg (mul_nonneg (by linarith) (le_of_lt hliq)) (le_of_lt ht)
    linarith

/-- The fee curve never drops below the configured minimum ratio. -/
lemma min_le_price (f : Fee) (hf : f.valid) (liq v : ℚ) :
    f.minFeeRatio ≤ f.price liq v := by
  obtain ⟨h0, hmm, h1⟩ := hf
  unfold Fee.price
  split_ifs with h1' h2'
  · exact le_refl _
  · exact hmm
  · have hliq : 0 < liq := lt_of_not_ge h2'
    have ht : 0 < f.liquidityThreshold := lt_trans hliq (lt_of_not_ge h1')
    have hfrac : liq / f.liquidityThreshold ≤ 1 :=
      (div_le_one ht).mpr (le_of_lt (lt_of_not_ge h1'))
    have hc : 0 ≤ f.maxFeeRatio - f.minFeeRatio := by linarith
    have : (f.maxFeeRatio - f.minFeeRatio) * liq / f.liquidityThreshold ≤
        (f.maxFeeRatio - f.minFeeRatio) := by
      rw [mul_div_assoc]
      exact mul_le_of_le_one_right hc hfrac
    linarith

/-- The fee curve is monotonically non-increasing in remaining liquidity. -/
lemma price_antitone (f : Fee) (hf : f.valid) (liq liq' v : ℚ)
    (h : liq ≤ liq') : f.price liq' v ≤ f.price liq v := by
  by_cases h1 : f.liquidityThreshold ≤ liq
  · have h1' : f.liquidityThreshold ≤ liq' := le_trans h1 h
    have e1 : f.price liq v = f.minFeeRatio := by unfold Fee.price; rw [if_pos h1]
    have e2 : f.price liq' v = f.minFeeRatio := by unfold Fee.price; rw [if_pos h1']
    rw [e1, e2]
  · by_cases h2 : liq ≤ 0
    · have e1 : f.price liq v = f.maxFeeRatio := by
        unfold Fee.price; rw [if_neg h1, if_pos h2]
      rw [e1]
      exact price_le_max f hf liq' v
    · by_cases h3 : f.liquidityThreshold ≤ liq'
      · have e2 : f.price liq' v = f.minFeeRatio := by unfold Fee.price; rw [if_pos h3]
        rw [e2]
        exact min_le_price f hf liq v
      · have h2' : ¬ liq' ≤ 0 := by
          intro hc; exact h2 (le_trans h hc)
        have e1 : f.price liq v = f.maxFeeRatio -
            (f.maxFeeRatio - f.minFeeRatio) * liq / f.liquidityThreshold := by
          unfold Fee.price; rw [if_neg h1, if_neg h2]
        have e2 : f.price liq' v = f.maxFeeRatio -
            (f.maxFeeRatio - f.minFeeRatio) * liq' / f.liquidityThreshold := by
          unfold Fee.price; rw [if_neg h3, if_neg h2']
        rw [e1, e2]
        have hliq : 0 < liq := lt_of_not_ge h2
        have ht : 0 < f.liquidityThreshold := lt_trans hliq (lt_of_not_ge h1)
        have hc : 0 ≤ f.maxFeeRatio - f.minFeeRatio := by
          obtain ⟨_, hmm, _⟩ := hf; linarith
        have : (f.maxFeeRatio - f.minFeeRatio) * liq / f.liquidityThreshold ≤
            (f.maxFeeRatio - f.minFeeRatio) * liq' / f.liquidityThreshold :=
          (div_le_div_iff_of_pos_right ht).mpr (mul_le_mul_of_nonneg_left h hc)
        linarith

/-- Inversion for a successful `run_unstake`: the stake meta existed with the
lockup out of force, and the post-state holds both authorities at the pool's
reserves, keeps the destination mint, and marks the record created. -/
lemma runUnstake_ok_facts (s : WsolAccts) (p : WsolPost)
    (h : runUnstake s = Except.ok p) :
    ∃ m, s.stakeAccount.meta = some m ∧ m.lockupInForce = false ∧
      p.accts.stakeAccount.meta = some (acceptedMeta s.poolSolReserves) ∧
      p.accts.destinationMint = s.destinationMint ∧
      p.accts.destinationLamports =
        s.destinationLamports + p.payoutLamports ∧
      p.accts.recordInitialized = true := by
  unfold runUnstake at h
  split at h
  · exact absurd h (by simp)
  · rename_i m hm
    split at h
    · exact absurd h (by simp)
    · rename_i payout feeAmt hq
      split at h
      · exact absurd h (by simp)
      · split at h
        · exact absurd h (by simp)
        · rename_i a1 ha1
          split at h
          · exact absurd h (by simp)
          · rename_i a2 ha2
            obtain ⟨hl, -, ha2'⟩ := stakeAuthorizeWithdrawer_ok ha2
            have ha1' := stakeAuthorizeStaker_ok ha1
            have hp := (Except.ok.injEq _ _).mp h
            subst ha1' ha2'
            refine ⟨m, hm, hl, ?_, ?_, ?_, ?_⟩ <;> rw [← hp] <;>
              simp [acceptedMeta, hl]

/-- Inversion for a successful `UnstakeWSOL`: the validated preconditions
held, and in the post-state both authorities sit at the pool's reserves, the
destination mint is the wrapped-SOL mint, the record is created, and the
destination's token balance equals its lamport balance (`sync_native` ran
last). -/
lemma unstakeWsolRun_ok_facts (s : WsolAccts) (p : WsolPost)
    (h : unstakeWsolRun s = Except.ok p) :
    p.accts.stakeAccount.meta = some (acceptedMeta s.poolSolReserves) ∧
    p.accts.destinationMint = WRAPPED_SOL_MINT ∧
    p.accts.recordInitialized = true ∧
    p.accts.destinationAmount = p.accts.destinationLamports := by
  unfold unstakeWsolRun at h
  split at h
  · exact absurd h (by simp)
  · rename_i m hm
    split at h
    · exact absurd h (by simp)
    · split at h
      · exact absurd h (by simp)
      · split at h
        · exact absurd h (by simp)
        · rename_i hlock hmint hrec
          split at h
          · exact absurd h (by simp)
          · rename_i post hrun
            obtain ⟨m', hm', hl', hmeta, hmint', hpay', hrec'⟩ :=
              runUnstake_ok_facts s post hrun
            have hmint2 : s.destinationMint = WRAPPED_SOL_MINT :=
              not_not.mp hmint
            have hp := (Except.ok.injEq _ _).mp h
            rw [← hp]
            exact ⟨by simpa using hmeta, by simpa using hmint' ▸ hmint2 ▸ rfl,
              by simpa using hrec', by simp⟩

/-- A concrete pool for the concrete checks. -/
def poolEx : Pool := { authority := 2, feeAuthority := 3, lpSupply := 1000000 }

/-- A concrete stake meta: staker and withdrawer both at identity 5, lockup
not in force. -/
def stakeMetaEx : StakeMeta :=
  { authorized := { staker := 5, withdrawer := 5 }, lockupInForce := false }

/-- The same meta with the lockup in force. -/
def stakeMetaLocked : StakeMeta :=
  { authorized := { staker := 5, withdrawer := 5 }, lockupInForce := true }

/-- A concrete well-formed stake account: staker and withdrawer both at
identity 5, lockup not in force, worth 100000 lamports. -/
def stakeEx : StakeAccount := { meta := some stakeMetaEx, lamports := 100000 }

/-- The same stake account with its lockup in force. -/
def stakeLockedEx : StakeAccount :=
  { meta := some stakeMetaLocked, lamports := 100000 }

/-- The spec's concrete fee curve: min ratio 0.003, max ratio 0.30,
threshold 500000. -/
def feeEx : Fee :=
  { maxFeeRatio := mkRat 3 10, minFeeRatio := mkRat 3 1000,
    liquidityThreshold := 500000 }

/-- A concrete well-formed plain `Unstake` request: unstaker 5 owns the
position, record address fresh, reserves 1000000, destination empty. -/
def uEx : UnstakeAccts :=
  { unstaker := 5, poolAccount := poolEx, poolSolReserves := 7,
    reservesLamports := 1000000, stakeAccount := stakeEx,
    recordInitialized := false, destinationLamports := 0,
    clockIsSysvar := true }

/-- The same plain request on a position whose lockup is in force. -/
def uLocked : UnstakeAccts := { uEx with stakeAccount := stakeLockedEx }

/-- The same plain request issued by identity 8, which holds no authority
over the position. -/
def uNotOwned : UnstakeAccts := { uEx with unstaker := 8 }

/-- A concrete well-formed `UnstakeWSOL` request over the spec's fee curve
and reserve level. -/
def wEx : WsolAccts :=
  { payer := 9, unstaker := 5, stakeAccount := stakeEx,
    destinationMint := WRAPPED_SOL_MINT, destinationAmount := 0,
    destinationLamports := 0, poolAccount := poolEx, poolSolReserves := 7,
    reservesLamports := 1000000, fee := feeEx, recordInitialized := false }

/-- The post-state `wEx` commits: fee 300, payout 99700, reserves debited to
900300, destination synchronized at 99700, record created. -/
def wExPost : WsolPost :=
  { accts := { wEx with
      stakeAccount := { stakeEx with meta := some (acceptedMeta 7) },
      destinationAmount := 99700, destinationLamports := 99700,
      reservesLamports := 900300, recordInitialized := true },
    record := { lamports_at_creation := 100000 },
    payoutLamports := 99700, feeLamports := 300 }

/-- The wSOL request on a position whose lockup is in force. -/
def wLocked : WsolAccts := { wEx with stakeAccount := stakeLockedEx }

/-- The wSOL request with a destination token account of a different mint. -/
def wBadMint : WsolAccts := { wEx with destinationMint := 42 }

/-- C1: the claim says a request for which the authority transfer succeeds
also performs the reserve debit and the payout transfer, atomically.  The
code does not: on a concrete well-formed request, `Unstake::run` succeeds,
moves both authorities to the pool's reserves and creates the record, yet
leaves the reserves balance and the destination balance unchanged — the
pay-out and pool update are TODO comments at `unstake.rs` lines 114–116. -/
theorem c1_accept_commits_without_debit_or_payout :
    unstakeRun uEx = Except.ok (unstakePost uEx) ∧
    (unstakePost uEx).accts.stakeAccount.meta =
      some (acceptedMeta uEx.poolSolReserves) ∧
    (unstakePost uEx).accts.reservesLamports = uEx.reservesLamports ∧
    (unstakePost uEx).accts.destinationLamports = uEx.destinationLamports := by
  decide

/-- On the `UnstakeWSOL` entry point the record account is a PDA keyed by
(pool, stake account), so after any successful acceptance the follow-up
request on the resulting state hits `init` on an existing account and is
rejected with the record-already-exists condition. -/
lemma wsol_second_accept_record_exists (s : WsolAccts) (p : WsolPost)
    (h : unstakeWsolRun s = Except.ok p) :
    unstakeWsolRun p.accts = Except.error UnstakeError.RecordAlreadyExists := by
  obtain ⟨hmeta, hmint, hrec, -⟩ := unstakeWsolRun_ok_facts s p h
  unfold unstakeWsolRun
  rw [hmeta]
  simp [acceptedMeta, hmint, hrec]

/-- The follow-up plain `Unstake` request on the state committed by `uEx`:
the same unstaker resubmits the same position to the same pool, with a
fresh caller-chosen record address — possible because the plain record
account's `init` has no position-derived seeds (`unstake.rs` lines 40–45,
its `(PDA)` doc comment notwithstanding). -/
def uSecond : UnstakeAccts :=
  { (unstakePost uEx).accts with recordInitialized := false }

/-- C2: the claim says a second acceptance of the same position identity
into the same pool fails with a record-already-exists condition on every
entry point.  `UnstakeWSOL` enforces it — its record is a PDA keyed by
(pool, stake account), so the concrete second acceptance is rejected with
the record-already-exists condition (last two conjuncts) — but the plain
`Unstake` record account has no position-derived seeds, so a second plain
acceptance with a fresh record address gets past `init` and is instead
rejected with the not-owned error, the withdrawer having moved to the
pool's reserves (first three conjuncts). -/
theorem c2_record_uniqueness_gap :
    unstakeRun uEx = Except.ok (unstakePost uEx) ∧
    unstakeRun uSecond = Except.error UnstakeError.StakeAccountNotOwned ∧
    UnstakeError.StakeAccountNotOwned ≠ UnstakeError.RecordAlreadyExists ∧
    unstakeWsolRun wEx = Except.ok wExPost ∧
    unstakeWsolRun wExPost.accts =
      Except.error UnstakeError.RecordAlreadyExists := by
  decide

/-- C3: every successful Accept transition of the plain `Unstake` transfers
both authority roles — staker (control) and withdrawer (ownership) —
together to the pool's reserve-holding identity; an error commits nothing,
so no reachable state holds only one transferred role. -/
theorem c3_both_authorities_transferred (s : UnstakeAccts) (p : UnstakePost)
    (h : unstakeRun s = Except.ok p) :
    ∃ m, p.accts.stakeAccount.meta = some m ∧
      m.authorized.staker = s.poolSolReserves ∧
      m.authorized.withdrawer = s.poolSolReserves := by
  obtain ⟨-, -, m, -, -, -, hp⟩ := (unstakeRun_ok_iff s p).mp h
  subst hp
  exact ⟨acceptedMeta s.poolSolReserves, rfl, rfl, rfl⟩

/-- C3 witness: at the concrete request `uEx` both roles end at the pool's
reserve identity 7. -/
theorem c3_witness :
    ∃ m, (unstakePost uEx).accts.stakeAccount.meta = some m ∧
      m.authorized.staker = uEx.poolSolReserves ∧
      m.authorized.withdrawer = uEx.poolSolReserves :=
  c3_both_authorities_transferred uEx (unstakePost uEx) (by decide)

/-- C4: the claim says the lockup precondition is enforced on every Accept
entry point.  `UnstakeWSOL` enforces it (third conjunct), but the plain
`Unstake` entry point has no lockup constraint — it is a TODO comment at
`unstake.rs` line 35 — so a locked position is rejected only downstream, by
the external stake program's own lockup error during the second `authorize`,
not by this program's `LockupInForce` precondition (first two conjuncts). -/
theorem c4_plain_unstake_lacks_lockup_check :
    unstakeRun uLocked = Except.error UnstakeError.StakeProgramLockupInForce ∧
    UnstakeError.StakeProgramLockupInForce ≠
      UnstakeError.StakeAccountLockupInForce ∧
    unstakeWsolRun wLocked =
      Except.error UnstakeError.StakeAccountLockupInForce := by
  decide

/-- C5: a plain `Unstake` request whose caller does not hold the withdrawer
authority fails with the not-owned error; the check precedes both
`authorize` CPIs in `Unstake::run`, and an error commits nothing, so no
authority transfer is performed. -/
theorem c5_not_owned_rejected (s : UnstakeAccts) (m : StakeMeta)
    (hrec : s.recordInitialized = false) (hclk : s.clockIsSysvar = true)
    (hm : s.stakeAccount.meta = some m)
    (hno : s.unstaker ≠ m.authorized.withdrawer) :
    unstakeRun s = Except.error UnstakeError.StakeAccountNotOwned := by
  unfold unstakeRun
  rw [hm]
  simp [hrec, hclk, hno]

/-- C5 witness: identity 8, which holds no authority over the concrete
position, is rejected with the not-owned error. -/
theorem c5_witness :
    unstakeRun uNotOwned = Except.error UnstakeError.StakeAccountNotOwned :=
  c5_not_owned_rejected uNotOwned stakeMetaEx
    (by decide) (by decide) (by decide) (by decide)

/-- C6: every successful Accept of the plain `Unstake` records
`lamports_at_creation` equal to the stake account's lamport balance, which
the authority transfer does not change, so it is the position's value at
the instant the pool took ownership. -/
theorem c6_record_lamports_at_creation (s : UnstakeAccts) (p : UnstakePost)
    (h : unstakeRun s = Except.ok p) :
    p.record.lamports_at_creation = s.stakeAccount.lamports ∧
    p.accts.stakeAccount.lamports = s.stakeAccount.lamports := by
  obtain ⟨-, -, m, -, -, -, hp⟩ := (unstakeRun_ok_iff s p).mp h
  subst hp
  exact ⟨rfl, rfl⟩

/-- C6 witness: at the concrete request `uEx` the record holds 100000, the
stake account's balance. -/
theorem c6_witness :
    (unstakePost uEx).record.lamports_at_creation = uEx.stakeAccount.lamports ∧
    (unstakePost uEx).accts.stakeAccount.lamports = uEx.stakeAccount.lamports :=
  c6_record_lamports_at_creation uEx (unstakePost uEx) (by decide)

/-- C7: a successful plain `Unstake` changes only the stake account's two
authorities and creates the record: the `Pool` account's fields, the
reserves balance, the destination balance, the stake account's lamports and
the remaining accounts are all unchanged. -/
theorem c7_plain_unstake_frame (s : UnstakeAccts) (p : UnstakePost)
    (h : unstakeRun s = Except.ok p) :
    p.accts.poolAccount = s.poolAccount ∧
    p.accts.reservesLamports = s.reservesLamports ∧
    p.accts.destinationLamports = s.destinationLamports ∧
    p.accts.unstaker = s.unstaker ∧
    p.accts.poolSolReserves = s.poolSolReserves ∧
    p.accts.stakeAccount.lamports = s.stakeAccount.lamports ∧
    p.accts.stakeAccount.meta = some (acceptedMeta s.poolSolReserves) ∧
    p.accts.recordInitialized = true ∧
    p.record = { lamports_at_creation := s.stakeAccount.lamports } := by
  obtain ⟨-, -, m, -, -, -, hp⟩ := (unstakeRun_ok_iff s p).mp h
  subst hp
  exact ⟨rfl, rfl, rfl, rfl, rfl, rfl, rfl, rfl, rfl⟩

/-- C7 witness: the frame conditions at the concrete request `uEx`. -/
theorem c7_witness :
    (unstakePost uEx).accts.poolAccount = uEx.poolAccount ∧
    (unstakePost uEx).accts.reservesLamports = uEx.reservesLamports ∧
    (unstakePost uEx).accts.destinationLamports = uEx.destinationLamports ∧
    (unstakePost uEx).accts.unstaker = uEx.unstaker ∧
    (unstakePost uEx).accts.poolSolReserves = uEx.poolSolReserves ∧
    (unstakePost uEx).accts.stakeAccount.lamports = uEx.stakeAccount.lamports ∧
    (unstakePost uEx).accts.stakeAccount.meta =
      some (acceptedMeta uEx.poolSolReserves) ∧
    (unstakePost uEx).accts.recordInitialized = true ∧
    (unstakePost uEx).record = { lamports_at_creation := uEx.stakeAccount.lamports } :=
  c7_plain_unstake_frame uEx (unstakePost uEx) (by decide)

/-- C8: `quote_unstake` fails with `InsufficientLiquidity` when the reserves
are below the position's value (the quote is pure, so no pool state
changes); otherwise it returns the fee amount as the ceiling of the
position value times the curve's ratio at `reserves - position_value`
remaining liquidity — characterized here as the unique integer in
`[v*ratio, v*ratio + 1)` — and the payout as the remainder. -/
theorem c8_quote_unstake (f : Fee) (hf : f.valid) (reserves v : Nat) :
    (reserves < v →
      quoteUnstake f reserves v = Except.error UnstakeError.InsufficientLiquidity) ∧
    (v ≤ reserves → ∃ payout feeAmt,
      quoteUnstake f reserves v = Except.ok (payout, feeAmt) ∧
      (v : ℚ) * f.price ((reserves - v : Nat) : ℚ) (v : ℚ) ≤ (feeAmt : ℚ) ∧
      (feeAmt : ℚ) < (v : ℚ) * f.price ((reserves - v : Nat) : ℚ) (v : ℚ) + 1 ∧
      feeAmt ≤ v ∧ payout + feeAmt = v) := by
  constructor
  · intro hlt
    unfold quoteUnstake
    rw [if_pos hlt]
  · intro hle
    have hnot : ¬ reserves < v := not_lt.mpr hle
    have hr0 : 0 ≤ f.price ((reserves - v : Nat) : ℚ) (v : ℚ) :=
      le_trans hf.1 (min_le_price f hf _ _)
    have hr1 : f.price ((reserves - v : Nat) : ℚ) (v : ℚ) ≤ 1 :=
      le_trans (price_le_max f hf _ _) hf.2.2
    obtain ⟨hlo, hhi⟩ :=
      ceilMulNat_spec v (f.price ((reserves - v : Nat) : ℚ) (v : ℚ)) hr0
    have hfee_le : ceilMulNat v (f.price ((reserves - v : Nat) : ℚ) (v : ℚ)) ≤ v := by
      have hv0 : (0 : ℚ) ≤ (v : ℚ) := Nat.cast_nonneg v
      have hmul : (v : ℚ) * f.price ((reserves - v : Nat) : ℚ) (v : ℚ) ≤ (v : ℚ) := by
        calc (v : ℚ) * f.price ((reserves - v : Nat) : ℚ) (v : ℚ)
            ≤ (v : ℚ) * 1 := mul_le_mul_of_nonneg_left hr1 hv0
        _ = (v : ℚ) := mul_one _
      have : ((ceilMulNat v (f.price ((reserves - v : Nat) : ℚ) (v : ℚ)) : Nat) : ℚ) <
          ((v + 1 : Nat) : ℚ) := by
        push_cast
        linarith
      exact Nat.lt_succ_iff.mp (Nat.cast_lt.mp this)
    refine ⟨v - ceilMulNat v (f.price ((reserves - v : Nat) : ℚ) (v : ℚ)),
      ceilMulNat v (f.price ((reserves - v : Nat) : ℚ) (v : ℚ)), ?_, hlo, hhi,
      hfee_le, Nat.sub_add_cancel hfee_le⟩
    unfold quoteUnstake
    rw [if_neg hnot]

/-- C8 witness: the spec's two concrete scenarios — reserves 50000 cannot
cover a 100000 position; reserves 1000000 quote the 100000 position at fee
300 and payout 99700 on the concrete curve. -/
theorem c8_witness :
    quoteUnstake feeEx 50000 100000 =
      Except.error UnstakeError.InsufficientLiquidity ∧
    (∃ payout feeAmt,
      quoteUnstake feeEx 1000000 100000 = Except.ok (payout, feeAmt) ∧
      (100000 : ℚ) * feeEx.price ((1000000 - 100000 : Nat) : ℚ) (100000 : ℚ) ≤
        (feeAmt : ℚ) ∧
      (feeAmt : ℚ) <
        (100000 : ℚ) * feeEx.price ((1000000 - 100000 : Nat) : ℚ) (100000 : ℚ) + 1 ∧
      feeAmt ≤ 100000 ∧ payout + feeAmt = 100000) :=
  ⟨(c8_quote_unstake feeEx (by decide) 50000 100000).1 (by decide),
   (c8_quote_unstake feeEx (by decide) 1000000 100000).2 (by decide)⟩

/-- C9: for every valid fee configuration the curve is monotonically
non-increasing in remaining liquidity and bounded within
`[min_fee_ratio, max_fee_ratio]`, and follows the spec's three clauses read
in order: the minimum at or above the threshold, the maximum at or below
zero remaining liquidity, the linear interpolation strictly in between. -/
theorem c9_price_monotone_bounded (f : Fee) (hf : f.valid)
    (liq liq' v : ℚ) (h : liq ≤ liq') :
    f.price liq' v ≤ f.price liq v ∧
    f.minFeeRatio ≤ f.price liq v ∧
    f.price liq v ≤ f.maxFeeRatio ∧
    (f.liquidityThreshold ≤ liq → f.price liq v = f.minFeeRatio) ∧
    (liq ≤ 0 → liq < f.liquidityThreshold → f.price liq v = f.maxFeeRatio) ∧
    (0 < liq → liq < f.liquidityThreshold →
      f.price liq v = f.maxFeeRatio -
        (f.maxFeeRatio - f.minFeeRatio) * liq / f.liquidityThreshold) := by
  refine ⟨price_antitone f hf liq liq' v h, min_le_price f hf liq v,
    price_le_max f hf liq v, ?_, ?_, ?_⟩
  · intro h1
    unfold Fee.price
    rw [if_pos h1]
  · intro h2 h3
    unfold Fee.price
    rw [if_neg (not_le.mpr h3), if_pos h2]
  · intro h2 h3
    unfold Fee.price
    rw [if_neg (not_le.mpr h3), if_neg (not_le.mpr h2)]

/-- C9 witness: on the concrete curve, at remaining liquidities 200000 and
600000 around the 500000 threshold, with position value 100000. -/
theorem c9_witness :
    feeEx.price 600000 100000 ≤ feeEx.price 200000 100000 ∧
    feeEx.minFeeRatio ≤ feeEx.price 200000 100000 ∧
    feeEx.price 200000 100000 ≤ feeEx.maxFeeRatio ∧
    (feeEx.liquidityThreshold ≤ (200000 : ℚ) →
      feeEx.price 200000 100000 = feeEx.minFeeRatio) ∧
    ((200000 : ℚ) ≤ 0 → (200000 : ℚ) < feeEx.liquidityThreshold →
      feeEx.price 200000 100000 = feeEx.maxFeeRatio) ∧
    ((0 : ℚ) < 200000 → (200000 : ℚ) < feeEx.liquidityThreshold →
      feeEx.price 200000 100000 = feeEx.maxFeeRatio -
        (feeEx.maxFeeRatio - feeEx.minFeeRatio) * 200000 /
          feeEx.liquidityThreshold) :=
  c9_price_monotone_bounded feeEx (by decide) 200000 600000 100000 (by decide)

/-- C10: an `UnstakeWSOL` request that passes the stake account's lockup
constraint but whose destination token account is not of the wrapped-SOL
mint fails with `DestinationNotWSol` (the whole transaction aborts, so no
state changes); and every successful request ends with the destination
synchronized: its token balance equals its lamport balance. -/
theorem c10_wsol_destination (s : WsolAccts) (m : StakeMeta)
    (hm : s.stakeAccount.meta = some m) (hl : m.lockupInForce = false) :
    (s.destinationMint ≠ WRAPPED_SOL_MINT →
      unstakeWsolRun s = Except.error UnstakeError.DestinationNotWSol) ∧
    (∀ p, unstakeWsolRun s = Except.ok p →
      p.accts.destinationAmount = p.accts.destinationLamports) := by
  constructor
  · intro hmint
    unfold unstakeWsolRun
    rw [hm]
    simp [hl, hmint]
  · intro p h
    exact (unstakeWsolRun_ok_facts s p h).2.2.2

/-- C10 witness: the concrete request with mint 42 is rejected with
`DestinationNotWSol`; the successful concrete request ends with the
destination's token balance equal to its lamport balance. -/
theorem c10_witness :
    unstakeWsolRun wBadMint = Except.error UnstakeError.DestinationNotWSol ∧
    wExPost.accts.destinationAmount = wExPost.accts.destinationLamports :=
  ⟨(c10_wsol_destination wBadMint stakeMetaEx (by decide) (by decide)).1
      (by decide),
   (c10_wsol_destination wEx stakeMetaEx (by decide) (by decide)).2
      wExPost (by decide)⟩

end SanctumUnstake
